import Mathlib

/-!
Verification of the task-lifecycle state machine of the legacy-automation
agency repository, embedded shallowly from `src/queue.js` (class `TaskQueue`),
`src/gemini-orchestrator.js` (class `GeminiOrchestrator`) and the task
creation sites in `src/server.js`.

Modelling decisions:
  - JavaScript strings (task `status`, envelope `mode`) stay `String`s, and
    the `switch` on `task.envelope.mode` with its `default:` branch becomes an
    equality test against `"ARCHITECT"` (every other mode string, including
    `"EXECUTE"`, `"SUPERVISE"` and unknown ones, dispatches to the executor
    collaborator, exactly as `EXECUTE` / `SUPERVISE` / `default` all call
    `openclaw.executeTask` / `superviseTask`).
  - A collaborator call (`gemini.planExecution`, `openclaw.executeTask` /
    `superviseTask`, `gemini.architectTask`, `gemini.verifyResult`) either
    returns a value or throws; one scheduling pass is therefore a pure
    function of the task and a `PassInput` record giving each call's outcome.
    A thrown error is caught by `startProcessing`'s `try/catch` and routed to
    `TaskQueue.handleFailure`, carrying the task with all mutations performed
    before the throw (JS mutates the task object in place).
  - `gemini.verifyResult` parses the model's reply with `callGeminiJSON`; on a
    JSON parse failure that helper returns an object with only a `raw` field
    and in particular no `status` field.  The verdict object is therefore
    modelled with `status : Option String`, where `none` is the parse-failure
    shape.
  - Persistence (`saveTask`, `deadLetter`) only writes files and swallows its
    own errors, so it is not modelled.
  - The scheduler pops tasks from `this.queue` only; a task receives another
    pass exactly when the previous pass pushed it back (`this.queue.push`),
    which happens exactly in the two `retrying` branches.  `run` encodes this:
    it applies further passes only while the outcome is `requeued`.
The name `Task` collides with a core Lean type, so everything lives in the
`LegacyAgency` namespace.
-/

namespace LegacyAgency

/-- One step of an execution plan, as produced by `gemini.planExecution`
(fields `action`, `mode`, `verification` of the prompt's JSON schema). -/
structure Step where
  action : String
  mode : String
  verification : String
deriving Repr, DecidableEq

/-- An execution plan: the `steps` array of the planner's JSON reply. -/
structure Plan where
  steps : List Step
deriving Repr, DecidableEq

/-- The deep-analysis object returned by `GeminiOrchestrator.architectTask`:
`root_cause`, optional `revised_plan` (absent models a null/undefined, i.e.
falsy, field) and `should_escalate_to_human`. -/
structure Analysis where
  root_cause : String
  revised_plan : Option Plan
  should_escalate_to_human : Bool
deriving Repr, DecidableEq

/-- The verification object returned by `gemini.verifyResult`.  `status` is
`none` when the reply could not be parsed as JSON (then `callGeminiJSON`
returns its raw-text fallback object, which has no `status` field). -/
structure Verdict where
  status : Option String
deriving Repr, DecidableEq

/-- What the executing phase produced and stored in `result`: either the
executor collaborator's outcome (`openclaw.executeTask` / `superviseTask`,
opaque here) or the planner's deep-analysis object (`gemini.architectTask`).
The constructor records which collaborator was invoked. -/
inductive TaskResult where
  | exec (r : String)
  | analysis (a : Analysis)
deriving Repr, DecidableEq

/-- The task envelope, exactly the object built at the two creation sites in
`src/server.js` (`POST /api/tasks` and the webhook handler). -/
structure Envelope where
  ttl_max : Nat
  hops : Nat
  mode : String
  state_hashes : List String
  consecutive_failures : Nat
  consecutive_successes : Nat
  escalated : Bool
  session_ids : List String
  mcp_cache_key : String
deriving Repr, DecidableEq

/-- A task record: the fields of the object built in `src/server.js` that the
scheduler reads or writes, plus the fields `processTask` / `handleFailure`
attach (`plan`, `result`, `verification`, `last_error`). -/
structure Task where
  id : String
  description : String
  software_name : String
  task_type : String
  status : String
  plan : Option Plan
  result : Option TaskResult
  verification : Option Verdict
  last_error : Option String
  envelope : Envelope
deriving Repr, DecidableEq

/-- The envelope as initialized at both creation sites in `src/server.js`:
ttl_max 10, hops 0, empty `state_hashes` and `session_ids`, zero counters,
`escalated` false.  The mode is `'EXECUTE'` at `POST /api/tasks` and
`classification.mode || 'EXECUTE'` at the webhook, so it is a parameter
here. -/
def mkEnvelope (id mode : String) : Envelope where
  ttl_max := 10
  hops := 0
  mode := mode
  state_hashes := []
  consecutive_failures := 0
  consecutive_successes := 0
  escalated := false
  session_ids := []
  mcp_cache_key := id ++ "-cache"

/-- A freshly created task (`status: 'received'`), as built by
`POST /api/tasks` or the webhook handler in `src/server.js`. -/
def mkTask (id desc software ttype mode : String) : Task where
  id := id
  description := desc
  software_name := software
  task_type := ttype
  status := "received"
  plan := none
  result := none
  verification := none
  last_error := none
  envelope := mkEnvelope id mode

/-- The outcomes of the four collaborator calls a single scheduling pass can
make.  `Except.error msg` models the call throwing an `Error` with that
message.  Only one of `execR` / `archR` is consulted, depending on the
mode. -/
structure PassInput where
  planR : Except String Plan
  execR : Except String String
  archR : Except String Analysis
  verifyR : Except String Verdict
deriving Repr

/-- What a pass did with the task afterwards: `requeued` is
`this.queue.push(task)` (the task will be scheduled again); the other three
are terminal (the task is deleted from `this.processing` and never pushed
back). -/
inductive Outcome where
  | completed
  | requeued
  | deadLettered
  | needsHuman
deriving Repr, DecidableEq

/-- Phase 1 of `TaskQueue.processTask` (queue.js lines 47-55): set status
`'classifying'`, call `gemini.planExecution`, then store the plan and set
status `'planned'`.  If the planner throws, the partially-updated task (status
already `'classifying'`) is carried to the failure handler. -/
def classifyPhase (t : Task) (planR : Except String Plan) :
    Except (Task × String) Task :=
  let t1 := { t with status := "classifying" }
  match planR with
  | .error e => .error (t1, e)
  | .ok p => .ok { t1 with
      plan := some p,
      status := "planned" }

/-- Phase 2 of `TaskQueue.processTask` (queue.js lines 57-77): set status
`'executing'`, increment `hops`, then dispatch on `task.envelope.mode`.
`'ARCHITECT'` calls `gemini.architectTask`; every other mode string
(`'EXECUTE'`, `'SUPERVISE'`, and the `default:` branch) calls the executor
collaborator.  `architectTask` (gemini-orchestrator.js lines 327-331)
additionally replaces `task.plan` with `analysis.revised_plan` and resets
`task.envelope.mode` to `'EXECUTE'` when the analysis has a truthy
`revised_plan` and `should_escalate_to_human` is falsy. -/
def executingPhase (t : Task) (inp : PassInput) :
    Except (Task × String) (Task × TaskResult) :=
  let t2 := { t with
    status := "executing",
    envelope := { t.envelope with hops := t.envelope.hops + 1 } }
  if t2.envelope.mode = "ARCHITECT" then
    match inp.archR with
    | .error e => .error (t2, e)
    | .ok a =>
      if a.revised_plan.isSome && !a.should_escalate_to_human then
        .ok ({ t2 with
          plan := a.revised_plan,
          envelope := { t2.envelope with mode := "EXECUTE" } }, .analysis a)
      else
        .ok (t2, .analysis a)
  else
    match inp.execR with
    | .error e => .error (t2, e)
    | .ok r => .ok (t2, .exec r)

/-- The three verdict branches of `TaskQueue.processTask` (queue.js lines
86-140), applied to the task as it stands after the verifying phase:
`'PASS'` completes (with de-escalation after 2 consecutive successes while
escalated), `'RETRY'` increments the failure counter, dead-letters on TTL
exhaustion and otherwise escalates after 3 consecutive failures when not
already escalated and re-enqueues, and anything else (including a verdict
with no `status` field) goes to `'needs-human'`. -/
def applyVerdict (t : Task) (res : TaskResult) (v : Verdict) : Task × Outcome :=
  if v.status = some "PASS" then
    let e1 := { t.envelope with
      consecutive_successes := t.envelope.consecutive_successes + 1,
      consecutive_failures := 0 }
    let e2 := if e1.consecutive_successes ≥ 2 && e1.escalated then
                { e1 with
                  mode := "EXECUTE",
                  escalated := false }
              else e1
    ({ t with
      status := "completed",
      result := some res,
      verification := some v,
      envelope := e2 }, .completed)
  else if v.status = some "RETRY" then
    let e1 := { t.envelope with
      consecutive_failures := t.envelope.consecutive_failures + 1,
      consecutive_successes := 0 }
    if e1.hops ≥ e1.ttl_max then
      ({ t with
        status := "dead-lettered",
        envelope := e1 }, .deadLettered)
    else
      let e2 := if e1.consecutive_failures ≥ 3 && !e1.escalated then
                  { e1 with
                    mode := "ARCHITECT",
                    escalated := true }
                else e1
      ({ t with
        status := "retrying",
        envelope := e2 }, .requeued)
  else
    ({ t with
      status := "needs-human",
      verification := some v }, .needsHuman)

/-- `TaskQueue.handleFailure` (queue.js lines 143-164): increment
`consecutive_failures` (without touching `consecutive_successes`), record the
error message, dead-letter on TTL exhaustion, otherwise escalate whenever the
failure counter has reached 3 (with no not-already-escalated guard) and
re-enqueue. -/
def handleFailure (t : Task) (msg : String) : Task × Outcome :=
  let e1 := { t.envelope with
    consecutive_failures := t.envelope.consecutive_failures + 1 }
  let t1 := { t with
    envelope := e1,
    last_error := some msg }
  if e1.hops ≥ e1.ttl_max then
    ({ t1 with status := "dead-lettered" }, .deadLettered)
  else
    let e2 := if e1.consecutive_failures ≥ 3 then
                { e1 with
                  mode := "ARCHITECT",
                  escalated := true }
              else e1
    ({ t1 with
      envelope := e2,
      status := "retrying" }, .requeued)

/-- One full scheduling pass: `TaskQueue.processTask` wrapped in
`startProcessing`'s `try/catch`, whose `catch` routes any thrown collaborator
error to `TaskQueue.handleFailure` together with the task as mutated so far.
The status `'verifying'` (queue.js line 81) is set before `gemini.verifyResult`
is called, so it is visible to the failure handler when that call throws. -/
def processPass (t : Task) (inp : PassInput) : Task × Outcome :=
  match classifyPhase t inp.planR with
  | .error (t1, e) => handleFailure t1 e
  | .ok t1 =>
    match executingPhase t1 inp with
    | .error (t2, e) => handleFailure t2 e
    | .ok (t2, res) =>
      let t3 := { t2 with status := "verifying" }
      match inp.verifyR with
      | .error e => handleFailure t3 e
      | .ok v => applyVerdict t3 res v

/-- `TaskQueue.enqueue` (queue.js lines 15-18): append the task, unchanged, to
the tail of the pending queue. -/
def enqueue (q : List Task) (t : Task) : List Task := q ++ [t]

/-- A task's scheduled life: the scheduler gives a task another pass exactly
when the previous pass re-enqueued it (`this.queue.push` in the two
`'retrying'` branches); after `completed`, `dead-lettered` or `needs-human`
the task is removed from `this.processing` and never pushed back, so the
remaining pass inputs are never consumed. -/
def run (t : Task) : List PassInput → Task
  | [] => t
  | i :: is =>
    match processPass t i with
    | (t', .requeued) => run t' is
    | (t', _) => t'


/-! ### Helper lemmas about the phase functions and scheduled lives -/


theorem handleFailure_envelope (t : Task) (m : String) :
    (handleFailure t m).1.envelope.ttl_max = t.envelope.ttl_max ∧
    (handleFailure t m).1.envelope.hops = t.envelope.hops ∧
    (handleFailure t m).1.envelope.consecutive_successes
      = t.envelope.consecutive_successes ∧
    (handleFailure t m).1.envelope.consecutive_failures
      = t.envelope.consecutive_failures + 1 ∧
    (handleFailure t m).1.envelope.state_hashes = t.envelope.state_hashes ∧
    (handleFailure t m).1.envelope.session_ids = t.envelope.session_ids := by
  rcases Nat.lt_or_ge t.envelope.hops t.envelope.ttl_max with h | h
  · simp [handleFailure, Nat.not_le.mpr h]
    split <;> simp
  · simp [handleFailure, h]

theorem handleFailure_requeued_iff (t : Task) (m : String) :
    (handleFailure t m).2 = .requeued ↔
      t.envelope.hops < t.envelope.ttl_max := by
  rcases Nat.lt_or_ge t.envelope.hops t.envelope.ttl_max with h | h
  · simp [handleFailure, Nat.not_le.mpr h, h]
  · simp [handleFailure, h, Nat.not_lt.mpr h]

theorem classifyPhase_ok {t t1 : Task} {r : Except String Plan}
    (h : classifyPhase t r = .ok t1) :
    t1.envelope = t.envelope ∧ t1.last_error = t.last_error ∧
    t1.status = "planned" := by
  unfold classifyPhase at h
  cases r with
  | error e => simp at h
  | ok p =>
    simp at h
    subst h
    simp

theorem classifyPhase_err {t t1 : Task} {r : Except String Plan} {e : String}
    (h : classifyPhase t r = .error (t1, e)) :
    t1.envelope = t.envelope ∧ t1.plan = t.plan := by
  unfold classifyPhase at h
  cases r with
  | error e' =>
    simp [Prod.ext_iff] at h
    obtain ⟨h1, -⟩ := h
    subst h1
    simp
  | ok p => simp at h


theorem executingPhase_ok {t t2 : Task} {i : PassInput} {res : TaskResult}
    (h : executingPhase t i = .ok (t2, res)) :
    t2.envelope.ttl_max = t.envelope.ttl_max ∧
    t2.envelope.hops = t.envelope.hops + 1 ∧
    t2.envelope.consecutive_failures = t.envelope.consecutive_failures ∧
    t2.envelope.consecutive_successes = t.envelope.consecutive_successes ∧
    t2.envelope.escalated = t.envelope.escalated ∧
    t2.envelope.state_hashes = t.envelope.state_hashes ∧
    t2.envelope.session_ids = t.envelope.session_ids ∧
    t2.last_error = t.last_error := by
  unfold executingPhase at h
  dsimp only at h
  split at h
  · cases ha : i.archR with
    | error e => rw [ha] at h; simp at h
    | ok a =>
      rw [ha] at h
      dsimp only at h
      split at h
      · simp [Prod.ext_iff] at h
        obtain ⟨h1, -⟩ := h
        subst h1
        simp
      · simp [Prod.ext_iff] at h
        obtain ⟨h1, -⟩ := h
        subst h1
        simp
  · cases he : i.execR with
    | error e => rw [he] at h; simp at h
    | ok r =>
      rw [he] at h
      simp [Prod.ext_iff] at h
      obtain ⟨h1, -⟩ := h
      subst h1
      simp

theorem executingPhase_err {t t2 : Task} {i : PassInput} {e : String}
    (h : executingPhase t i = .error (t2, e)) :
    t2.envelope.ttl_max = t.envelope.ttl_max ∧
    t2.envelope.hops = t.envelope.hops + 1 ∧
    t2.envelope.consecutive_failures = t.envelope.consecutive_failures ∧
    t2.envelope.consecutive_successes = t.envelope.consecutive_successes ∧
    t2.envelope.escalated = t.envelope.escalated ∧
    t2.envelope.state_hashes = t.envelope.state_hashes ∧
    t2.envelope.session_ids = t.envelope.session_ids := by
  unfold executingPhase at h
  dsimp only at h
  split at h
  · cases ha : i.archR with
    | error e' =>
      rw [ha] at h
      simp [Prod.ext_iff] at h
      obtain ⟨h1, -⟩ := h
      subst h1
      simp
    | ok a =>
      rw [ha] at h
      dsimp only at h
      split at h <;> simp at h
  · cases he : i.execR with
    | error e' =>
      rw [he] at h
      simp [Prod.ext_iff] at h
      obtain ⟨h1, -⟩ := h
      subst h1
      simp
    | ok r => rw [he] at h; simp at h


theorem applyVerdict_frame (t : Task) (res : TaskResult) (v : Verdict) :
    (applyVerdict t res v).1.envelope.ttl_max = t.envelope.ttl_max ∧
    (applyVerdict t res v).1.envelope.hops = t.envelope.hops ∧
    (applyVerdict t res v).1.envelope.state_hashes = t.envelope.state_hashes ∧
    (applyVerdict t res v).1.envelope.session_ids = t.envelope.session_ids := by
  unfold applyVerdict
  split <;> (try dsimp only) <;> (repeat' split) <;> simp

theorem applyVerdict_requeued_iff (t : Task) (res : TaskResult) (v : Verdict) :
    (applyVerdict t res v).2 = .requeued ↔
      v.status = some "RETRY" ∧ t.envelope.hops < t.envelope.ttl_max := by
  simp only [applyVerdict]
  split_ifs <;> simp_all

theorem applyVerdict_requeue_cs (t : Task) (res : TaskResult) (v : Verdict)
    (h : (applyVerdict t res v).2 = .requeued) :
    (applyVerdict t res v).1.envelope.consecutive_successes = 0 := by
  simp only [applyVerdict] at *
  split_ifs at * <;> simp_all

theorem applyVerdict_mutex (t : Task) (res : TaskResult) (v : Verdict)
    (h : t.envelope.consecutive_successes = 0) :
    (applyVerdict t res v).1.envelope.consecutive_failures = 0 ∨
    (applyVerdict t res v).1.envelope.consecutive_successes = 0 := by
  simp only [applyVerdict]
  split_ifs <;> simp_all


theorem processPass_ttl (t : Task) (i : PassInput) :
    (processPass t i).1.envelope.ttl_max = t.envelope.ttl_max := by
  unfold processPass
  cases hc : classifyPhase t i.planR with
  | error te =>
    obtain ⟨t1, e⟩ := te
    have h1 := (classifyPhase_err hc).1
    have h2 := (handleFailure_envelope t1 e).1
    simp [h2, h1]
  | ok t1 =>
    have h1 := (classifyPhase_ok hc).1
    cases he : executingPhase t1 i with
    | error te2 =>
      obtain ⟨t2, e⟩ := te2
      have h2 := (executingPhase_err he).1
      have h3 := (handleFailure_envelope t2 e).1
      simp [he, h3, h2, h1]
    | ok tr =>
      obtain ⟨t2, res⟩ := tr
      have h2 := (executingPhase_ok he).1
      cases hv : i.verifyR with
      | error e =>
        have h3 := (handleFailure_envelope { t2 with status := "verifying" } e).1
        simp [he, hv, h3, h2, h1]
      | ok v =>
        have h3 := (applyVerdict_frame { t2 with status := "verifying" } res v).1
        simp [he, hv, h3, h2, h1]


theorem processPass_spec (t : Task) (i : PassInput) :
    (processPass t i).1.envelope.ttl_max = t.envelope.ttl_max ∧
    (processPass t i).1.envelope.state_hashes = t.envelope.state_hashes ∧
    (processPass t i).1.envelope.session_ids = t.envelope.session_ids ∧
    ((∃ p, i.planR = .ok p) →
       (processPass t i).1.envelope.hops = t.envelope.hops + 1) ∧
    ((∃ e, i.planR = .error e) →
       (processPass t i).1.envelope.hops = t.envelope.hops) ∧
    ((processPass t i).2 = .requeued →
       (processPass t i).1.envelope.hops < t.envelope.ttl_max) ∧
    (t.envelope.consecutive_successes = 0 →
       ((processPass t i).2 = .requeued →
          (processPass t i).1.envelope.consecutive_successes = 0) ∧
       ((processPass t i).1.envelope.consecutive_failures = 0 ∨
        (processPass t i).1.envelope.consecutive_successes = 0)) := by
  unfold processPass
  cases hc : classifyPhase t i.planR with
  | error te =>
    obtain ⟨t1, e⟩ := te
    obtain ⟨h1, -⟩ := classifyPhase_err hc
    have hf := handleFailure_envelope t1 e
    have hr := handleFailure_requeued_iff t1 e
    have hpe : ∃ e', i.planR = .error e' := by
      cases hp : i.planR with
      | error e' => exact ⟨e', rfl⟩
      | ok p => rw [hp] at hc; simp [classifyPhase] at hc
    refine ⟨by simp [hf.1, h1], by simp [hf.2.2.2.2.1, h1],
            by simp [hf.2.2.2.2.2, h1], ?_, by simp [hf.2.1, h1], ?_, ?_⟩
    · rintro ⟨p, hp⟩
      obtain ⟨e', hpe⟩ := hpe
      rw [hp] at hpe
      exact absurd hpe (by simp)
    · intro hrq
      simp only at hrq
      rw [hr] at hrq
      rw [hf.2.1, h1]
      rw [h1] at hrq
      exact hrq
    · intro hcs
      constructor
      · intro _
        rw [hf.2.2.1, h1]
        exact hcs
      · right
        rw [hf.2.2.1, h1]
        exact hcs
  | ok t1 =>
    obtain ⟨h1, -, -⟩ := classifyPhase_ok hc
    have hpo : ∃ p, i.planR = .ok p := by
      cases hp : i.planR with
      | error e' => rw [hp] at hc; simp [classifyPhase] at hc
      | ok p => exact ⟨p, rfl⟩
    cases he : executingPhase t1 i with
    | error te2 =>
      obtain ⟨t2, e⟩ := te2
      have h2 := executingPhase_err he
      have hf := handleFailure_envelope t2 e
      have hr := handleFailure_requeued_iff t2 e
      refine ⟨by simp [he, hf.1, h2.1, h1], by simp [he, hf.2.2.2.2.1, h2.2.2.2.2.2.1, h1],
              by simp [he, hf.2.2.2.2.2, h2.2.2.2.2.2.2, h1], ?_, ?_, ?_, ?_⟩
      · intro _
        simp only [he]
        rw [hf.2.1, h2.2.1, h1]
      · rintro ⟨e', hpe⟩
        obtain ⟨p, hp⟩ := hpo
        rw [hp] at hpe
        exact absurd hpe (by simp)
      · intro hrq
        simp only [he] at hrq ⊢
        rw [hr] at hrq
        rw [hf.2.1]
        have : t2.envelope.ttl_max = t.envelope.ttl_max := by rw [h2.1, h1]
        omega
      · intro hcs
        have : t2.envelope.consecutive_successes = 0 := by
          rw [h2.2.2.2.1, h1]; exact hcs
        constructor
        · intro _
          simp only [he]
          rw [hf.2.2.1]
          exact this
        · right
          simp only [he]
          rw [hf.2.2.1]
          exact this
    | ok tr =>
      obtain ⟨t2, res⟩ := tr
      have h2 := executingPhase_ok he
      cases hv : i.verifyR with
      | error e =>
        have hf := handleFailure_envelope { t2 with status := "verifying" } e
        have hr := handleFailure_requeued_iff { t2 with status := "verifying" } e
        simp only [he, hv]
        refine ⟨by simp [hf.1, h2.1, h1], by simp [hf.2.2.2.2.1, h2.2.2.2.2.2.1, h1],
                by simp [hf.2.2.2.2.2, h2.2.2.2.2.2.2.1, h1], ?_, ?_, ?_, ?_⟩
        · intro _
          rw [hf.2.1]
          show t2.envelope.hops = t.envelope.hops + 1
          rw [h2.2.1, h1]
        · rintro ⟨e', hpe⟩
          obtain ⟨p, hp⟩ := hpo
          rw [hp] at hpe
          exact absurd hpe (by simp)
        · intro hrq
          rw [hr] at hrq
          rw [hf.2.1]
          have hk : ({ t2 with status := "verifying" } : Task).envelope = t2.envelope := rfl
          rw [hk] at hrq ⊢
          have : t2.envelope.ttl_max = t.envelope.ttl_max := by rw [h2.1, h1]
          omega
        · intro hcs
          have hcz : t2.envelope.consecutive_successes = 0 := by
            rw [h2.2.2.2.1, h1]; exact hcs
          constructor
          · intro _
            rw [hf.2.2.1]
            exact hcz
          · right
            rw [hf.2.2.1]
            exact hcz
      | ok v =>
        have t3 := ({ t2 with status := "verifying" } : Task)
        have hfr := applyVerdict_frame { t2 with status := "verifying" } res v
        have hri := applyVerdict_requeued_iff { t2 with status := "verifying" } res v
        simp only [he, hv]
        refine ⟨by simp [hfr.1, h2.1, h1], by simp [hfr.2.2.1, h2.2.2.2.2.2.1, h1],
                by simp [hfr.2.2.2, h2.2.2.2.2.2.2.1, h1], ?_, ?_, ?_, ?_⟩
        · intro _
          rw [hfr.2.1]
          show t2.envelope.hops = t.envelope.hops + 1
          rw [h2.2.1, h1]
        · rintro ⟨e', hpe⟩
          obtain ⟨p, hp⟩ := hpo
          rw [hp] at hpe
          exact absurd hpe (by simp)
        · intro hrq
          rw [hri] at hrq
          rw [hfr.2.1]
          have hk : ({ t2 with status := "verifying" } : Task).envelope = t2.envelope := rfl
          rw [hk] at hrq ⊢
          have : t2.envelope.ttl_max = t.envelope.ttl_max := by rw [h2.1, h1]
          omega
        · intro hcs
          have hcz : ({ t2 with status := "verifying" } : Task).envelope.consecutive_successes = 0 := by
            show t2.envelope.consecutive_successes = 0
            rw [h2.2.2.2.1, h1]; exact hcs
          exact ⟨fun hrq => applyVerdict_requeue_cs _ res v hrq,
                 applyVerdict_mutex _ res v hcz⟩


theorem run_stop {t : Task} {i : PassInput} (is : List PassInput)
    (h : (processPass t i).2 ≠ .requeued) :
    run t (i :: is) = (processPass t i).1 := by
  unfold run
  cases hp : processPass t i with
  | mk t' o =>
    rw [hp] at h
    cases o <;> simp_all

theorem run_ttl (t : Task) (is : List PassInput) :
    (run t is).envelope.ttl_max = t.envelope.ttl_max := by
  induction is generalizing t with
  | nil => rfl
  | cons i is ih =>
    unfold run
    cases hp : processPass t i with
    | mk t' o =>
      have hs := (processPass_spec t i).1
      rw [hp] at hs
      cases o with
      | requeued => rw [ih t']; exact hs
      | completed => exact hs
      | deadLettered => exact hs
      | needsHuman => exact hs

theorem run_frame (t : Task) (is : List PassInput) :
    (run t is).envelope.state_hashes = t.envelope.state_hashes ∧
    (run t is).envelope.session_ids = t.envelope.session_ids := by
  induction is generalizing t with
  | nil => exact ⟨rfl, rfl⟩
  | cons i is ih =>
    unfold run
    cases hp : processPass t i with
    | mk t' o =>
      have hs := processPass_spec t i
      rw [hp] at hs
      cases o with
      | requeued =>
        exact ⟨(ih t').1.trans hs.2.1, (ih t').2.trans hs.2.2.1⟩
      | completed => exact ⟨hs.2.1, hs.2.2.1⟩
      | deadLettered => exact ⟨hs.2.1, hs.2.2.1⟩
      | needsHuman => exact ⟨hs.2.1, hs.2.2.1⟩

theorem processPass_hops_le (t : Task) (i : PassInput) :
    t.envelope.hops ≤ (processPass t i).1.envelope.hops ∧
    (processPass t i).1.envelope.hops ≤ t.envelope.hops + 1 := by
  have hs := processPass_spec t i
  cases hpl : i.planR with
  | error e =>
    have := hs.2.2.2.2.1 ⟨e, hpl⟩
    omega
  | ok p =>
    have := hs.2.2.2.1 ⟨p, hpl⟩
    omega

theorem run_hops_mono (t : Task) (is : List PassInput) :
    t.envelope.hops ≤ (run t is).envelope.hops := by
  induction is generalizing t with
  | nil => exact Nat.le_refl _
  | cons i is ih =>
    unfold run
    cases hp : processPass t i with
    | mk t' o =>
      have hm := (processPass_hops_le t i).1
      rw [hp] at hm
      cases o with
      | requeued => exact hm.trans (ih t')
      | completed => exact hm
      | deadLettered => exact hm
      | needsHuman => exact hm

theorem run_hops_bound (t : Task) (is : List PassInput)
    (h : t.envelope.hops < t.envelope.ttl_max) :
    (run t is).envelope.hops ≤ (run t is).envelope.ttl_max := by
  induction is generalizing t with
  | nil => exact Nat.le_of_lt h
  | cons i is ih =>
    unfold run
    cases hp : processPass t i with
    | mk t' o =>
      have hs := processPass_spec t i
      have hle := (processPass_hops_le t i).2
      rw [hp] at hs hle
      cases o with
      | requeued =>
        apply ih t'
        have := hs.2.2.2.2.2.1 rfl
        rw [← hs.1] at this
        exact this
      | completed =>
        dsimp only at hs hle ⊢
        rw [hs.1]; omega
      | deadLettered =>
        dsimp only at hs hle ⊢
        rw [hs.1]; omega
      | needsHuman =>
        dsimp only at hs hle ⊢
        rw [hs.1]; omega

theorem run_mutex (t : Task) (is : List PassInput)
    (h : t.envelope.consecutive_successes = 0) :
    (run t is).envelope.consecutive_failures = 0 ∨
    (run t is).envelope.consecutive_successes = 0 := by
  induction is generalizing t with
  | nil => exact Or.inr h
  | cons i is ih =>
    unfold run
    cases hp : processPass t i with
    | mk t' o =>
      have hs := (processPass_spec t i).2.2.2.2.2.2 h
      rw [hp] at hs
      cases o with
      | requeued => exact ih t' (hs.1 rfl)
      | completed => exact hs.2
      | deadLettered => exact hs.2
      | needsHuman => exact hs.2


/-! ### Concrete sample data for witnesses and counterexamples -/

/-- A one-step plan of the shape `gemini.planExecution` returns. -/
def samplePlan : Plan := ⟨[⟨"enter invoice 113", "EXECUTE", "record saved"⟩]⟩

/-- A revised plan of the shape ARCHITECT analysis returns. -/
def revisedPlan : Plan := ⟨[⟨"reopen the form first", "EXECUTE", "record saved"⟩]⟩

/-- A verdict object with `status: 'RETRY'`. -/
def retryVerdict : Verdict := ⟨some "RETRY"⟩

/-- A verdict object with `status: 'PASS'`. -/
def passVerdict : Verdict := ⟨some "PASS"⟩

/-- The verdict object produced when `callGeminiJSON` fails to parse the
verifier's reply: the fallback object has no `status` field. -/
def noStatusVerdict : Verdict := ⟨none⟩

/-- A deep-analysis result without a usable revised plan. -/
def plainAnalysis : Analysis := ⟨"selector drift", none, false⟩

/-- A deep-analysis result carrying a revised plan and not recommending
human escalation. -/
def revisedAnalysis : Analysis := ⟨"selector drift", some revisedPlan, false⟩

/-- A pass whose four collaborator calls all succeed and whose verdict is
RETRY. -/
def inRetry : PassInput :=
  ⟨.ok samplePlan, .ok "dispatched", .ok plainAnalysis, .ok retryVerdict⟩

/-- Like `inRetry`, but a deep analysis (if consulted) yields a revised
plan. -/
def inRetryRevised : PassInput :=
  ⟨.ok samplePlan, .ok "dispatched", .ok revisedAnalysis, .ok retryVerdict⟩

/-- A pass whose four collaborator calls all succeed and whose verdict is
PASS. -/
def inPass : PassInput :=
  ⟨.ok samplePlan, .ok "dispatched", .ok plainAnalysis, .ok passVerdict⟩

/-- A pass whose executor call throws. -/
def inExecBoom : PassInput :=
  ⟨.ok samplePlan, .error "tmux spawn failed", .ok plainAnalysis, .ok retryVerdict⟩

/-- A pass whose planner call (`gemini.planExecution`) throws, aborting the
pass before the executing phase. -/
def inPlanBoom : PassInput :=
  ⟨.error "Gemini API error (500)", .ok "dispatched", .ok plainAnalysis,
   .ok retryVerdict⟩

/-- A pass whose verifier reply cannot be parsed as JSON, yielding a verdict
object with no `status` field. -/
def inParseFail : PassInput :=
  ⟨.ok samplePlan, .ok "dispatched", .ok plainAnalysis, .ok noStatusVerdict⟩

/-- A freshly submitted sample task. -/
def sampleTask : Task :=
  mkTask "LEGACY-1" "enter invoices" "Sage 50" "data-entry" "EXECUTE"

/-- A task whose TTL budget is spent: as after ten hops (`hops = ttl_max =
10`). -/
def exhaustedTask : Task :=
  { sampleTask with
    status := "retrying",
    envelope := { sampleTask.envelope with hops := 10 } }

/-! ### Claim theorems -/

/-- C1: For every freshly created task and every sequence of scheduler
actions (verification PASS/RETRY handling and collaborator-failure handling),
the envelope counters `consecutive_failures` and `consecutive_successes` are
never both nonzero at the same time. -/
theorem counters_mutually_exclusive (id desc sw tt mode : String)
    (is : List PassInput) :
    (run (mkTask id desc sw tt mode) is).envelope.consecutive_failures = 0 ∨
    (run (mkTask id desc sw tt mode) is).envelope.consecutive_successes = 0 :=
  run_mutex _ is rfl

/-- C10: For every freshly created task, the envelope fields `state_hashes`
and `session_ids` start empty and no scheduler operation ever appends to or
otherwise modifies them, so they remain empty for the task's entire scheduled
life. -/
theorem audit_fields_stay_empty (id desc sw tt mode : String)
    (is : List PassInput) :
    (run (mkTask id desc sw tt mode) is).envelope.state_hashes = [] ∧
    (run (mkTask id desc sw tt mode) is).envelope.session_ids = [] := by
  have h := run_frame (mkTask id desc sw tt mode) is
  simpa [mkTask, mkEnvelope] using h

/-- C6: Across every sequence of scheduler passes, `hops` is monotonically
non-decreasing, and for a task whose hop budget is not yet spent it never
exceeds `ttl_max`: a pass that would leave `hops = ttl_max` with a
RETRY-class signal forces the terminal dead-letter transition instead of
re-enqueueing. -/
theorem hops_monotone_and_bounded (t : Task) (is : List PassInput) :
    t.envelope.hops ≤ (run t is).envelope.hops ∧
    (t.envelope.hops < t.envelope.ttl_max →
      (run t is).envelope.hops ≤ (run t is).envelope.ttl_max) :=
  ⟨run_hops_mono t is, fun h => run_hops_bound t is h⟩

/-- C6 witness: the bound instantiated on a fresh task run through one RETRY
pass. -/
theorem hops_monotone_and_bounded_witness :
    sampleTask.envelope.hops < sampleTask.envelope.ttl_max ∧
    (run sampleTask [inRetry]).envelope.hops ≤
      (run sampleTask [inRetry]).envelope.ttl_max :=
  ⟨by decide, (hops_monotone_and_bounded sampleTask [inRetry]).2 (by decide)⟩


/-- C8: In ARCHITECT mode the executing phase invokes the planner's
deep-analysis entry point (`gemini.architectTask`) instead of the executor —
the result is independent of the executor's outcome — and when the analysis
carries a `revised_plan` and `should_escalate_to_human` is false, the task's
plan is replaced and its mode reset to `'EXECUTE'` already within the
executing phase, before verification runs. -/
theorem architect_dispatch (t : Task) (i : PassInput) (a : Analysis)
    (rp : Plan)
    (hm : t.envelope.mode = "ARCHITECT")
    (ha : i.archR = .ok a)
    (hrp : a.revised_plan = some rp)
    (hesc : a.should_escalate_to_human = false) :
    executingPhase t i =
      .ok ({ t with
        status := "executing",
        plan := some rp,
        envelope := { t.envelope with
          hops := t.envelope.hops + 1,
          mode := "EXECUTE" } }, .analysis a) ∧
    ∀ ex, executingPhase t { i with execR := ex } = executingPhase t i := by
  constructor
  · simp [executingPhase, hm, ha, hrp, hesc]
  · intro ex
    simp [executingPhase, hm, ha]

/-- C8 witness: an escalated task with a revising analysis, concretely. -/
theorem architect_dispatch_witness :
    executingPhase
        (mkTask "LEGACY-2" "fix form" "Sage 50" "data-entry" "ARCHITECT")
        inRetryRevised =
      .ok ({ mkTask "LEGACY-2" "fix form" "Sage 50" "data-entry" "ARCHITECT" with
        status := "executing",
        plan := some revisedPlan,
        envelope := { (mkTask "LEGACY-2" "fix form" "Sage 50" "data-entry"
            "ARCHITECT").envelope with
          hops := 1,
          mode := "EXECUTE" } }, .analysis revisedAnalysis) :=
  (architect_dispatch _ inRetryRevised revisedAnalysis revisedPlan rfl rfl rfl
    rfl).1

/-- C7: A PASS verdict completes the task: status `'completed'`, outcome
`completed`, `consecutive_successes` incremented, `consecutive_failures`
reset to 0, and de-escalation (mode `'EXECUTE'`, `escalated` cleared) exactly
when the incremented success count reaches 2 while `escalated` is true; a
completed pass is never re-enqueued (`run` stops).  Concretely, a fresh task
(ttl_max 10) receiving RETRY on hops 1-9 and PASS on hop 10 ends `completed`
with `consecutive_failures = 0` and `consecutive_successes = 1`. -/
theorem pass_completes (t : Task) (res : TaskResult) (v : Verdict)
    (hv : v.status = some "PASS") :
    ((applyVerdict t res v).2 = .completed ∧
     (applyVerdict t res v).1.status = "completed" ∧
     (applyVerdict t res v).1.envelope.consecutive_successes
       = t.envelope.consecutive_successes + 1 ∧
     (applyVerdict t res v).1.envelope.consecutive_failures = 0 ∧
     ((t.envelope.consecutive_successes + 1 ≥ 2 ∧ t.envelope.escalated = true)
        → (applyVerdict t res v).1.envelope.mode = "EXECUTE" ∧
          (applyVerdict t res v).1.envelope.escalated = false)) ∧
    (∀ t' i is, (processPass t' i).2 = .completed →
       run t' (i :: is) = (processPass t' i).1) ∧
    ((run sampleTask [inRetry, inRetry, inRetry, inRetry, inRetry, inRetry,
        inRetry, inRetry, inRetry, inPass]).status = "completed" ∧
     (run sampleTask [inRetry, inRetry, inRetry, inRetry, inRetry, inRetry,
        inRetry, inRetry, inRetry, inPass]).envelope.consecutive_failures
       = 0 ∧
     (run sampleTask [inRetry, inRetry, inRetry, inRetry, inRetry, inRetry,
        inRetry, inRetry, inRetry, inPass]).envelope.consecutive_successes
       = 1 ∧
     (run sampleTask [inRetry, inRetry, inRetry, inRetry, inRetry, inRetry,
        inRetry, inRetry, inRetry, inPass]).envelope.hops = 10) := by
  refine ⟨?_, ?_, by decide⟩
  · simp only [applyVerdict, hv]
    split_ifs with h1 <;> simp_all
  · intro t' i is ho
    apply run_stop
    rw [ho]
    intro hcon
    exact absurd hcon (by decide)

/-- C7 witness: the PASS branch instantiated on a concrete escalated task. -/
theorem pass_completes_witness :
    (applyVerdict exhaustedTask (.exec "dispatched") passVerdict).2
      = .completed ∧
    (applyVerdict exhaustedTask (.exec "dispatched") passVerdict).1.status
      = "completed" :=
  ⟨(pass_completes exhaustedTask (.exec "dispatched") passVerdict rfl).1.1,
   (pass_completes exhaustedTask (.exec "dispatched") passVerdict rfl).1.2.1⟩


/-- If the consulted collaborator calls succeed, the executing phase
succeeds. -/
theorem executingPhase_total {i : PassInput} (t : Task)
    (he : ∃ r, i.execR = .ok r) (ha : ∃ a, i.archR = .ok a) :
    ∃ t2 res, executingPhase t i = .ok (t2, res) := by
  obtain ⟨r, her⟩ := he
  obtain ⟨a, haa⟩ := ha
  unfold executingPhase
  dsimp only
  split
  · rw [haa]
    dsimp only
    split
    · exact ⟨_, _, rfl⟩
    · exact ⟨_, _, rfl⟩
  · rw [her]
    exact ⟨_, _, rfl⟩

/-- C5: A RETRY verdict received when the incremented hop count has reached
`ttl_max` forces the terminal dead-letter transition: outcome
`deadLettered`, status `'dead-lettered'`, no re-enqueue (the scheduled life
stops), and — TTL taking priority over escalation — the `escalated` flag is
left untouched although the failure counter still increments, regardless of
the length of the failure streak.  The failure handler performs the same TTL
check first: with `hops ≥ ttl_max` it dead-letters, leaving `escalated` and
`mode` untouched. -/
theorem ttl_deadletter (t : Task) (i : PassInput) (p : Plan) (v : Verdict)
    (e : String)
    (hp : i.planR = .ok p)
    (he : ∃ r, i.execR = .ok r) (ha : ∃ a, i.archR = .ok a)
    (hv : i.verifyR = .ok v) (hrv : v.status = some "RETRY")
    (httl : t.envelope.hops + 1 ≥ t.envelope.ttl_max) :
    (processPass t i).2 = .deadLettered ∧
    (processPass t i).1.status = "dead-lettered" ∧
    (processPass t i).1.envelope.escalated = t.envelope.escalated ∧
    (processPass t i).1.envelope.consecutive_failures
      = t.envelope.consecutive_failures + 1 ∧
    (∀ is, run t (i :: is) = (processPass t i).1) ∧
    (t.envelope.hops ≥ t.envelope.ttl_max →
      (handleFailure t e).2 = .deadLettered ∧
      (handleFailure t e).1.status = "dead-lettered" ∧
      (handleFailure t e).1.envelope.escalated = t.envelope.escalated ∧
      (handleFailure t e).1.envelope.mode = t.envelope.mode) := by
  have hcase : ∃ t1, classifyPhase t i.planR = .ok t1 := by
    rw [hp]
    exact ⟨_, rfl⟩
  obtain ⟨t1, hcls⟩ := hcase
  obtain ⟨ht1env, -, -⟩ := classifyPhase_ok hcls
  obtain ⟨t2, res, hexe⟩ := executingPhase_total t1 he ha
  have h2 := executingPhase_ok hexe
  have hpp : processPass t i
      = applyVerdict { t2 with status := "verifying" } res v := by
    unfold processPass
    rw [hcls]
    simp only [hexe, hv]
  have hge : t2.envelope.ttl_max ≤ t2.envelope.hops := by
    have e1 : t2.envelope.hops = t.envelope.hops + 1 := by
      rw [h2.2.1, ht1env]
    have e2 : t2.envelope.ttl_max = t.envelope.ttl_max := by
      rw [h2.1, ht1env]
    omega
  refine ⟨?_, ?_, ?_, ?_, ?_, ?_⟩
  · rw [hpp]
    simp [applyVerdict, hrv, hge]
  · rw [hpp]
    simp [applyVerdict, hrv, hge]
  · rw [hpp]
    simp only [applyVerdict, hrv]
    simp [hge]
    rw [h2.2.2.2.2.1, ht1env]
  · rw [hpp]
    simp only [applyVerdict, hrv]
    simp [hge]
    rw [h2.2.2.1, ht1env]
  · intro is
    apply run_stop
    rw [hpp]
    simp [applyVerdict, hrv, hge]
  · intro hge0
    refine ⟨?_, ?_, ?_, ?_⟩ <;> simp [handleFailure, hge0]

/-- C5 witness: a task with its hop budget spent, receiving RETRY (and, for
the failure-handler part, a thrown collaborator error). -/
theorem ttl_deadletter_witness :
    (processPass exhaustedTask inRetry).2 = .deadLettered ∧
    (handleFailure exhaustedTask "tmux spawn failed").2 = .deadLettered :=
  ⟨(ttl_deadletter exhaustedTask inRetry samplePlan retryVerdict
      "tmux spawn failed" rfl ⟨_, rfl⟩ ⟨_, rfl⟩ rfl rfl (by decide)).1,
   ((ttl_deadletter exhaustedTask inRetry samplePlan retryVerdict
      "tmux spawn failed" rfl ⟨_, rfl⟩ ⟨_, rfl⟩ rfl rfl
      (by decide)).2.2.2.2.2 (by decide)).1⟩


/-- C3 counterexample: a pass whose verification reply cannot be parsed as
JSON (verdict object with no `status` field) does not take the RETRY-class
transition the claim describes — the failure counter is not incremented and
the task is not re-enqueued; it is routed to the `'needs-human'` terminal
branch instead. -/
theorem parse_failure_retry_cex :
    (processPass sampleTask inParseFail).2 = .needsHuman ∧
    (processPass sampleTask inParseFail).2 ≠ .requeued ∧
    (processPass sampleTask inParseFail).1.status = "needs-human" ∧
    (processPass sampleTask inParseFail).1.envelope.consecutive_failures
      = sampleTask.envelope.consecutive_failures := by
  decide

/-- C3 (amended): a verdict whose `status` field is missing (the parse-failure
shape) falls through both the PASS and the RETRY comparison into the final
`else` branch: the scheduling loop does not crash, but the outcome is
ESCALATE-class, not RETRY-class — status `'needs-human'`, terminal (never
re-enqueued), with both counters left untouched. -/
theorem parse_failure_needs_human (t : Task) (i : PassInput) (p : Plan)
    (v : Verdict)
    (hp : i.planR = .ok p)
    (he : ∃ r, i.execR = .ok r) (ha : ∃ a, i.archR = .ok a)
    (hv : i.verifyR = .ok v) (hs : v.status = none) :
    (processPass t i).2 = .needsHuman ∧
    (processPass t i).1.status = "needs-human" ∧
    (processPass t i).1.envelope.consecutive_failures
      = t.envelope.consecutive_failures ∧
    (processPass t i).1.envelope.consecutive_successes
      = t.envelope.consecutive_successes ∧
    ∀ is, run t (i :: is) = (processPass t i).1 := by
  have hcase : ∃ t1, classifyPhase t i.planR = .ok t1 := by
    rw [hp]
    exact ⟨_, rfl⟩
  obtain ⟨t1, hcls⟩ := hcase
  obtain ⟨ht1env, -, -⟩ := classifyPhase_ok hcls
  obtain ⟨t2, res, hexe⟩ := executingPhase_total t1 he ha
  have h2 := executingPhase_ok hexe
  have hpp : processPass t i
      = applyVerdict { t2 with status := "verifying" } res v := by
    unfold processPass
    rw [hcls]
    simp only [hexe, hv]
  refine ⟨?_, ?_, ?_, ?_, ?_⟩
  · rw [hpp]
    simp [applyVerdict, hs]
  · rw [hpp]
    simp [applyVerdict, hs]
  · rw [hpp]
    simp [applyVerdict, hs]
    rw [h2.2.2.1, ht1env]
  · rw [hpp]
    simp [applyVerdict, hs]
    rw [h2.2.2.2.1, ht1env]
  · intro is
    apply run_stop
    rw [hpp]
    simp [applyVerdict, hs]

/-- C3 witness: the amended behaviour on a concrete fresh task. -/
theorem parse_failure_needs_human_witness :
    (processPass sampleTask inParseFail).2 = .needsHuman ∧
    (processPass sampleTask inParseFail).1.status = "needs-human" :=
  ⟨(parse_failure_needs_human sampleTask inParseFail samplePlan
      noStatusVerdict rfl ⟨_, rfl⟩ ⟨_, rfl⟩ rfl rfl).1,
   (parse_failure_needs_human sampleTask inParseFail samplePlan
      noStatusVerdict rfl ⟨_, rfl⟩ ⟨_, rfl⟩ rfl rfl).2.1⟩


/-- C2 counterexample: on a reachable task state (three RETRY verdicts, then
an ARCHITECT pass that swapped in a revised plan and reset the mode while
`escalated` stayed true), a thrown collaborator error and a RETRY verdict
produce different envelope updates beyond the recorded message: the failure
handler forces the mode back to `'ARCHITECT'` (it lacks the
not-already-escalated guard), the RETRY branch leaves it `'EXECUTE'`. -/
theorem failure_matches_retry_cex :
    (handleFailure (run sampleTask [inRetry, inRetry, inRetry, inRetryRevised])
        "tmux spawn failed").1.envelope.mode = "ARCHITECT" ∧
    (applyVerdict (run sampleTask [inRetry, inRetry, inRetry, inRetryRevised])
        (.exec "dispatched") retryVerdict).1.envelope.mode = "EXECUTE" ∧
    (run sampleTask [inRetry, inRetry, inRetry, inRetryRevised]).envelope.mode
      = "EXECUTE" ∧
    (run sampleTask
        [inRetry, inRetry, inRetry, inRetryRevised]).envelope.escalated
      = true := by
  decide

/-- C2 (amended): the failure handler's update equals the RETRY-verdict
branch's update plus recording the error message, provided
`consecutive_successes` is already 0 (the handler, unlike the RETRY branch,
does not reset it) and the incremented failure count does not reach 3 while
the task is already escalated (the handler's escalation condition lacks the
not-already-escalated guard). -/
theorem failure_matches_retry (t : Task) (e : String) (res : TaskResult)
    (hcs : t.envelope.consecutive_successes = 0)
    (hg : ¬(t.envelope.consecutive_failures + 1 ≥ 3 ∧
            t.envelope.escalated = true)) :
    handleFailure t e =
      ({ (applyVerdict t res retryVerdict).1 with last_error := some e },
       (applyVerdict t res retryVerdict).2) := by
  obtain ⟨id, d, sw, tt, st, pl, r0, vf, le, env⟩ := t
  obtain ⟨ttl, hops, mode, sh, cf, cs, esc, si, mk⟩ := env
  simp only at hcs hg
  subst hcs
  simp only [handleFailure, applyVerdict, retryVerdict]
  split_ifs <;> simp_all
  omega

/-- C2 witness: the amended equality on a fresh task. -/
theorem failure_matches_retry_witness :
    handleFailure sampleTask "boom" =
      ({ (applyVerdict sampleTask (.exec "dispatched") retryVerdict).1 with
          last_error := some "boom" },
       (applyVerdict sampleTask (.exec "dispatched") retryVerdict).2) :=
  failure_matches_retry sampleTask "boom" (.exec "dispatched") rfl (by decide)

/-- C4 counterexample: on a reachable state the fifth scheduler action (a
thrown executor error handled by `handleFailure`) forces the mode to
`'ARCHITECT'` although `escalated` is true (not false) and the failure
counter reaches 5, not 3 — refuting the claimed "only if `escalated` is
false" direction. -/
theorem escalation_iff_cex :
    (run sampleTask [inRetry, inRetry, inRetry, inRetryRevised]).envelope.mode
      = "EXECUTE" ∧
    (run sampleTask
        [inRetry, inRetry, inRetry, inRetryRevised]).envelope.escalated
      = true ∧
    (run sampleTask [inRetry, inRetry, inRetry, inRetryRevised,
        inExecBoom]).envelope.mode = "ARCHITECT" ∧
    (run sampleTask [inRetry, inRetry, inRetry, inRetryRevised,
        inExecBoom]).envelope.escalated = true ∧
    (run sampleTask [inRetry, inRetry, inRetry, inRetryRevised,
        inExecBoom]).envelope.consecutive_failures = 5 := by
  decide

/-- C4 (amended): on a non-TTL-exhausted state, the RETRY-verdict branch
escalates (mode `'ARCHITECT'`, `escalated := true`) exactly when the
incremented failure count reaches 3 while `escalated` is false; the thrown-
failure handler escalates exactly when the incremented failure count has
reached 3, regardless of `escalated`; and the PASS branch de-escalates (mode
`'EXECUTE'`, `escalated := false`) exactly when the incremented success count
reaches 2 while `escalated` is true. -/
theorem escalation_conditions (t : Task) (res : TaskResult) (v : Verdict)
    (e : String) :
    (v.status = some "RETRY" → t.envelope.hops < t.envelope.ttl_max →
      ((applyVerdict t res v).1.envelope.mode
          = if t.envelope.consecutive_failures + 1 ≥ 3 ∧
               t.envelope.escalated = false
            then "ARCHITECT" else t.envelope.mode) ∧
      ((applyVerdict t res v).1.envelope.escalated
          = if t.envelope.consecutive_failures + 1 ≥ 3 ∧
               t.envelope.escalated = false
            then true else t.envelope.escalated)) ∧
    (t.envelope.hops < t.envelope.ttl_max →
      ((handleFailure t e).1.envelope.mode
          = if t.envelope.consecutive_failures + 1 ≥ 3
            then "ARCHITECT" else t.envelope.mode) ∧
      ((handleFailure t e).1.envelope.escalated
          = if t.envelope.consecutive_failures + 1 ≥ 3
            then true else t.envelope.escalated)) ∧
    (v.status = some "PASS" →
      ((applyVerdict t res v).1.envelope.mode
          = if t.envelope.consecutive_successes + 1 ≥ 2 ∧
               t.envelope.escalated = true
            then "EXECUTE" else t.envelope.mode) ∧
      ((applyVerdict t res v).1.envelope.escalated
          = if t.envelope.consecutive_successes + 1 ≥ 2 ∧
               t.envelope.escalated = true
            then false else t.envelope.escalated)) := by
  refine ⟨?_, ?_, ?_⟩
  · intro hrv hlt
    constructor <;>
      · simp only [applyVerdict, hrv]
        simp [Nat.not_le.mpr hlt]
        split_ifs <;> simp_all
  · intro hlt
    constructor <;>
      · simp only [handleFailure]
        simp [Nat.not_le.mpr hlt]
        split_ifs <;> simp_all
  · intro hpv
    cases hesc : t.envelope.escalated <;>
      constructor <;>
        · simp only [applyVerdict, hpv]
          simp [hesc]
          try (split_ifs <;> simp_all)

/-- C4 witness: the three characterizations instantiated on the fresh sample
task. -/
theorem escalation_conditions_witness :
    (applyVerdict sampleTask (.exec "dispatched")
        retryVerdict).1.envelope.mode = sampleTask.envelope.mode ∧
    (handleFailure sampleTask "boom").1.envelope.mode
      = sampleTask.envelope.mode ∧
    (applyVerdict sampleTask (.exec "dispatched")
        passVerdict).1.envelope.escalated = sampleTask.envelope.escalated := by
  refine ⟨?_, ?_, ?_⟩
  · have h := ((escalation_conditions sampleTask (.exec "dispatched")
      retryVerdict "boom").1 rfl (by decide)).1
    simpa using h
  · have h := ((escalation_conditions sampleTask (.exec "dispatched")
      retryVerdict "boom").2.1 (by decide)).1
    simpa using h
  · have h := ((escalation_conditions sampleTask (.exec "dispatched")
      passVerdict "boom").2.2 rfl).2
    simpa using h


/-- C9 counterexample: a scheduling pass whose planner call
(`gemini.planExecution`) throws never reaches the dispatch point, so `hops`
is not incremented at all during that pass — yet the pass completes (the task
is even re-enqueued), refuting "incremented exactly once per pass". -/
theorem hops_once_per_pass_cex :
    (processPass sampleTask inPlanBoom).1.envelope.hops
      = sampleTask.envelope.hops ∧
    (processPass sampleTask inPlanBoom).2 = .requeued := by
  decide

/-- C9 (amended): during a pass whose planner call returns, `hops` is
incremented exactly once — immediately before dispatch, so regardless of what
the executing and verifying stages then do — while a pass aborted by a
planner error leaves `hops` unchanged; `enqueue` appends the task itself,
unchanged, so enqueueing never increments `hops` either. -/
theorem hops_once_per_pass (t : Task) (i : PassInput) (q : List Task) :
    ((∃ p, i.planR = .ok p) →
       (processPass t i).1.envelope.hops = t.envelope.hops + 1) ∧
    ((∃ e, i.planR = .error e) →
       (processPass t i).1.envelope.hops = t.envelope.hops) ∧
    (enqueue q t).getLast? = some t := by
  have hs := processPass_spec t i
  refine ⟨hs.2.2.2.1, hs.2.2.2.2.1, ?_⟩
  simp [enqueue]

/-- C9 witness: the amended statement on a fresh task, one successful-planner
pass and one failed-planner pass. -/
theorem hops_once_per_pass_witness :
    (processPass sampleTask inRetry).1.envelope.hops
      = sampleTask.envelope.hops + 1 ∧
    (processPass sampleTask inPlanBoom).1.envelope.hops
      = sampleTask.envelope.hops ∧
    (enqueue [] sampleTask).getLast? = some sampleTask :=
  ⟨(hops_once_per_pass sampleTask inRetry []).1 ⟨samplePlan, rfl⟩,
   (hops_once_per_pass sampleTask inPlanBoom []).2.1
     ⟨"Gemini API error (500)", rfl⟩,
   (hops_once_per_pass sampleTask inRetry []).2.2⟩

end LegacyAgency
